import Mathlib

/-!
Shallow embedding of the pairwise ELO tournament core of `vlm-follow-up-eval`:
the `EloRatingSystem` of `src/vlm_follow_up_eval/elo.py` and the orchestration
loop `run_pairwise_comparison` of `src/vlm_follow_up_eval/main.py`.

Modelling conventions: Python floats are modelled as real numbers; a Python
dict is modelled as an insertion-ordered association list (`List (String × ℝ)`
resp. `List (String × String)`), read with `List.lookup` and written with
`dictSet`; the judge is an external collaborator modelled as a function
returning `Option JudgeDecision`, where `none` stands for a raised exception.
-/

/-- One entry of `EloRatingSystem.history`: the dict appended at the end of
`update_ratings` in `elo.py`. -/
structure MatchRecord where
  model_a : String
  model_b : String
  rating_a_before : ℝ
  rating_b_before : ℝ
  rating_a_after : ℝ
  rating_b_after : ℝ
  score_a : ℝ
  expected_a : ℝ

/-- The `EloRatingSystem` dataclass of `elo.py`. `k_factor` and `base_rating`
are Python ints (32 and 1000) used only in float arithmetic, so they are
modelled as reals. -/
structure EloRatingSystem where
  k_factor : ℝ := 32
  base_rating : ℝ := 1000
  ratings : List (String × ℝ) := []
  history : List MatchRecord := []

/-- Python-dict assignment `d[k] = v` on an insertion-ordered association
list: replaces the value in place when the key is present, appends a new
entry otherwise. -/
def dictSet (d : List (String × ℝ)) (k : String) (v : ℝ) : List (String × ℝ) :=
  match d with
  | [] => [(k, v)]
  | (k', v') :: rest => if k' = k then (k, v) :: rest else (k', v') :: dictSet rest k v

/-- Embedding of `EloRatingSystem.get_rating` of `elo.py`: returns the current rating of
`model_name`, lazily initializing an unseen model to `base_rating`. The
Python method mutates `self`; here it returns the value together with the
updated system. -/
def get_rating (sys : EloRatingSystem) (model_name : String) : ℝ × EloRatingSystem :=
  match List.lookup model_name sys.ratings with
  | some r => (r, sys)
  | none =>
      (sys.base_rating,
       { sys with ratings := dictSet sys.ratings model_name sys.base_rating })

/-- Embedding of `EloRatingSystem.calculate_expected_score` of `elo.py`:
`1 / (1 + 10 ** ((rating_b - rating_a) / 400))`. -/
noncomputable def calculate_expected_score (rating_a rating_b : ℝ) : ℝ :=
  1 / (1 + (10 : ℝ) ^ ((rating_b - rating_a) / 400))

/-- Embedding of `EloRatingSystem.update_ratings` of `elo.py`: reads both current ratings
(with lazy initialization), computes each side's expected score, applies the
standard update with `actual_b = 1.0 - result`, writes both ratings back
(first `model_a`, then `model_b`), and appends one history record. -/
noncomputable def update_ratings (sys : EloRatingSystem) (model_a model_b : String)
    (result : ℝ) : EloRatingSystem :=
  let rating_a := (get_rating sys model_a).1
  let sys_a := (get_rating sys model_a).2
  let rating_b := (get_rating sys_a model_b).1
  let sys_ab := (get_rating sys_a model_b).2
  let expected_a := calculate_expected_score rating_a rating_b
  let expected_b := calculate_expected_score rating_b rating_a
  let actual_b := 1 - result
  let new_rating_a := rating_a + sys.k_factor * (result - expected_a)
  let new_rating_b := rating_b + sys.k_factor * (actual_b - expected_b)
  { sys_ab with
    ratings := dictSet (dictSet sys_ab.ratings model_a new_rating_a) model_b new_rating_b
    history := sys_ab.history ++
      [{ model_a := model_a
         model_b := model_b
         rating_a_before := rating_a
         rating_b_before := rating_b
         rating_a_after := new_rating_a
         rating_b_after := new_rating_b
         score_a := result
         expected_a := expected_a }] }

/-- A sequence of `update_ratings` calls, applied in order. -/
noncomputable def applyUpdates (sys : EloRatingSystem) :
    List (String × String × ℝ) → EloRatingSystem
  | [] => sys
  | (a, b, r) :: rest => applyUpdates (update_ratings sys a b r) rest

/-- The history record appended by one `update_ratings` call, stated
separately (with the same sub-expressions as `update_ratings`) so that
theorems can name it. -/
noncomputable def updateRecord (sys : EloRatingSystem) (model_a model_b : String)
    (result : ℝ) : MatchRecord :=
  let rating_a := (get_rating sys model_a).1
  let sys_a := (get_rating sys model_a).2
  let rating_b := (get_rating sys_a model_b).1
  let expected_a := calculate_expected_score rating_a rating_b
  let expected_b := calculate_expected_score rating_b rating_a
  { model_a := model_a
    model_b := model_b
    rating_a_before := rating_a
    rating_b_before := rating_b
    rating_a_after := rating_a + sys.k_factor * (result - expected_a)
    rating_b_after := rating_b + sys.k_factor * ((1 - result) - expected_b)
    score_a := result
    expected_a := expected_a }

/-- The judge's verdict: the `winner` literal of `JudgeDecision` in
`judge.py` (`"A"`, `"B"` or `"Tie"`). -/
inductive Winner where
  | A
  | B
  | Tie
deriving DecidableEq

/-- The structured decision returned by `PairwiseJudge.judge` in `judge.py`. -/
structure JudgeDecision where
  winner : Winner
  explanation : String
deriving DecidableEq

/-- The external judge collaborator: arguments are prompt, first response,
second response and reference answer, as in `PairwiseJudge.judge`; `none`
models a raised exception. -/
def Judge : Type := String → String → String → String → Option JudgeDecision

/-- One record of the `results` list built by `run_pairwise_comparison` in
`main.py`. Round-1 records carry no `real_winner` key, modelled as `none`. -/
structure ComparisonResult where
  input : String
  model_a : String
  model_b : String
  response_a : String
  response_b : String
  judge_decision : Winner
  judge_explanation : String
  swapped : Bool
  real_winner : Option String

/-- Round-1 verdict-to-score mapping of `run_pairwise_comparison`:
`"A"` → 1.0, `"B"` → 0.0, else 0.5. -/
noncomputable def round1Score : Winner → ℝ
  | .A => 1
  | .B => 0
  | .Tie => 1 / 2

/-- Round-2 (swapped) verdict-to-score mapping of `run_pairwise_comparison`:
`"A"` → 0.0, `"B"` → 1.0, else 0.5. -/
noncomputable def round2Score : Winner → ℝ
  | .A => 0
  | .B => 1
  | .Tie => 1 / 2

/-- Round-2 (swapped) `real_winner` string of `run_pairwise_comparison`. -/
def round2RealWinner : Winner → String
  | .A => "B"
  | .B => "A"
  | .Tie => "Tie"

/-- The body of the `for prompt_id in sorted_inputs` loop of
`run_pairwise_comparison`: round 1 (forward) then round 2 (swapped), each
wrapped in a `try/except` that skips the round on judge failure. The state
is the pair (ELO system, accumulated results list). -/
noncomputable def processItem (judge : Judge) (model_a_name model_b_name : String)
    (response_a response_b ref_answer prompt_id : String)
    (st : EloRatingSystem × List ComparisonResult) :
    EloRatingSystem × List ComparisonResult :=
  let st1 :=
    match judge prompt_id response_a response_b ref_answer with
    | some decision_1 =>
        (update_ratings st.1 model_a_name model_b_name (round1Score decision_1.winner),
         st.2 ++
           [{ input := prompt_id
              model_a := model_a_name
              model_b := model_b_name
              response_a := response_a
              response_b := response_b
              judge_decision := decision_1.winner
              judge_explanation := decision_1.explanation
              swapped := false
              real_winner := none }])
    | none => st
  match judge prompt_id response_b response_a ref_answer with
  | some decision_2 =>
      (update_ratings st1.1 model_a_name model_b_name (round2Score decision_2.winner),
       st1.2 ++
         [{ input := prompt_id
            model_a := model_b_name
            model_b := model_a_name
            response_a := response_b
            response_b := response_a
            judge_decision := decision_2.winner
            judge_explanation := decision_2.explanation
            swapped := true
            real_winner := some (round2RealWinner decision_2.winner) }])
  | none => st1

/-- Digit-string accumulator for `pyInt`: consumes decimal digits,
failing on any non-digit character. -/
def digitsToNat (acc : ℕ) : List Char → Option ℕ
  | [] => some acc
  | c :: cs => if c.isDigit then digitsToNat (acc * 10 + (c.toNat - 48)) cs else none

/-- Python `int(x)` as applied to item keys by the sort key of
`run_pairwise_comparison`: an optional sign followed by at least one decimal
digit; `none` models a raised `ValueError`. (Full Python `int()` also strips
surrounding whitespace and allows underscore separators; item keys in this
protocol do not use those forms.) -/
def pyInt (s : String) : Option ℤ :=
  match s.data with
  | [] => none
  | '-' :: cs =>
      if cs = [] then none else (digitsToNat 0 cs).map fun n => -(n : ℤ)
  | '+' :: cs =>
      if cs = [] then none else (digitsToNat 0 cs).map fun n => (n : ℤ)
  | cs => (digitsToNat 0 cs).map fun n => (n : ℤ)

/-- The integer sort key `int(x)` used by `sorted(common_inputs, key=...)`,
on keys that parse as integers (`getD 0` is irrelevant on that branch). -/
def intKey (s : String) : ℤ := (pyInt s).getD 0

/-- Comparison of item keys by integer value. -/
def intKeyLe (x y : String) : Prop := intKey x ≤ intKey y

instance : DecidableRel intKeyLe :=
  fun x y => inferInstanceAs (Decidable (intKey x ≤ intKey y))

instance : IsTotal String intKeyLe :=
  ⟨fun x y => Int.le_total (intKey x) (intKey y)⟩

instance : IsTrans String intKeyLe :=
  ⟨fun _ _ _ hxy hyz => Int.le_trans hxy hyz⟩

/-- The deterministic item ordering of `run_pairwise_comparison`:
`sorted(common_inputs, key=lambda x: int(x))`, falling back to plain
lexicographic `sorted(common_inputs)` when some key raises `ValueError`
(modelled: when some key fails to parse as an integer). Python `sorted` is
a stable sort, modelled by insertion sort. -/
def sortInputs (keys : List String) : List String :=
  if keys.all fun k => (pyInt k).isSome then
    List.insertionSort intKeyLe keys
  else
    List.insertionSort (fun x y : String => x ≤ y) keys

/-- Embedding of `set(outputs_a.keys()) & set(outputs_b.keys())` in
`run_pairwise_comparison`: the shared item keys (order is irrelevant, the
caller sorts them). -/
def commonInputs (outputs_a outputs_b : List (String × String)) : List String :=
  (outputs_a.map Prod.fst).filter fun k => (List.lookup k outputs_b).isSome

/-- Embedding of `run_pairwise_comparison` of `main.py`: on an empty key intersection
returns no results and leaves the ELO system untouched; otherwise folds
`processItem` over the deterministically sorted shared keys. Reference
answers default to `"N/A"` when missing. -/
noncomputable def run_pairwise_comparison (model_a_name : String)
    (outputs_a : List (String × String)) (model_b_name : String)
    (outputs_b : List (String × String)) (elo_system : EloRatingSystem)
    (judge : Judge) (reference_answers : List (String × String)) :
    EloRatingSystem × List ComparisonResult :=
  let common_inputs := commonInputs outputs_a outputs_b
  if common_inputs = [] then (elo_system, [])
  else
    (sortInputs common_inputs).foldl
      (fun st prompt_id =>
        processItem judge model_a_name model_b_name
          ((List.lookup prompt_id outputs_a).getD "")
          ((List.lookup prompt_id outputs_b).getD "")
          ((List.lookup prompt_id reference_answers).getD "N/A")
          prompt_id st)
      (elo_system, [])

/-- The pair loop of `process_evaluations` in `main.py`: runs
`run_pairwise_comparison` for each generated pair in order, threading the
single ELO system through and extending the accumulated result list. -/
noncomputable def runAllPairs (judge : Judge) (reference_answers : List (String × String)) :
    List ((String × List (String × String)) × (String × List (String × String))) →
    EloRatingSystem → List ComparisonResult → EloRatingSystem × List ComparisonResult
  | [], elo_system, acc => (elo_system, acc)
  | (a, b) :: rest, elo_system, acc =>
      let res := run_pairwise_comparison a.1 a.2 b.1 b.2 elo_system judge reference_answers
      runAllPairs judge reference_answers rest res.1 (acc ++ res.2)

namespace DictLemmas

theorem lookup_dictSet_self (d : List (String × ℝ)) (k : String) (v : ℝ) :
    List.lookup k (dictSet d k v) = some v := by
  induction d with
  | nil => simp [dictSet]
  | cons hd tl ih =>
    obtain ⟨k', v'⟩ := hd
    by_cases h : k' = k
    · simp [dictSet, h]
    · have hb : (k == k') = false := beq_eq_false_iff_ne.mpr (Ne.symm h)
      simp [dictSet, h, List.lookup, hb, ih]

theorem lookup_dictSet_ne (d : List (String × ℝ)) {k k' : String} (v : ℝ)
    (h : k' ≠ k) : List.lookup k' (dictSet d k v) = List.lookup k' d := by
  have hb : (k' == k) = false := beq_eq_false_iff_ne.mpr h
  induction d with
  | nil => simp [dictSet, List.lookup, hb]
  | cons hd tl ih =>
    obtain ⟨k'', v''⟩ := hd
    by_cases h2 : k'' = k
    · subst h2
      simp [dictSet, List.lookup, hb]
    · cases hbe : k' == k'' <;> simp [dictSet, h2, List.lookup, hbe, ih]

end DictLemmas

namespace GetRatingLemmas

theorem get_rating_history (sys : EloRatingSystem) (n : String) :
    (get_rating sys n).2.history = sys.history := by
  unfold get_rating
  cases List.lookup n sys.ratings <;> rfl

theorem get_rating_k_factor (sys : EloRatingSystem) (n : String) :
    (get_rating sys n).2.k_factor = sys.k_factor := by
  unfold get_rating
  cases List.lookup n sys.ratings <;> rfl

theorem get_rating_base_rating (sys : EloRatingSystem) (n : String) :
    (get_rating sys n).2.base_rating = sys.base_rating := by
  unfold get_rating
  cases List.lookup n sys.ratings <;> rfl

theorem lookup_get_rating_self (sys : EloRatingSystem) (n : String) :
    List.lookup n (get_rating sys n).2.ratings = some (get_rating sys n).1 := by
  unfold get_rating
  cases h : List.lookup n sys.ratings with
  | none => simpa using DictLemmas.lookup_dictSet_self sys.ratings n sys.base_rating
  | some r => simpa using h

theorem lookup_get_rating_ne (sys : EloRatingSystem) {n n' : String} (h : n' ≠ n) :
    List.lookup n' (get_rating sys n).2.ratings = List.lookup n' sys.ratings := by
  unfold get_rating
  cases List.lookup n sys.ratings with
  | none => simpa using DictLemmas.lookup_dictSet_ne sys.ratings sys.base_rating h
  | some r => rfl

theorem get_rating_fst (sys : EloRatingSystem) (n : String) :
    (get_rating sys n).1 = (List.lookup n sys.ratings).getD sys.base_rating := by
  unfold get_rating
  cases List.lookup n sys.ratings <;> rfl

theorem get_rating_fst_after_other (sys : EloRatingSystem) {a b : String} (h : b ≠ a) :
    (get_rating (get_rating sys a).2 b).1 = (get_rating sys b).1 := by
  rw [get_rating_fst, get_rating_fst, lookup_get_rating_ne sys h,
    get_rating_base_rating sys a]

end GetRatingLemmas

namespace EloLemmas

theorem expected_score_base_pos (ra rb : ℝ) :
    0 < (10 : ℝ) ^ ((rb - ra) / 400) :=
  Real.rpow_pos_of_pos (by norm_num) _

theorem expected_score_pos (ra rb : ℝ) : 0 < calculate_expected_score ra rb := by
  unfold calculate_expected_score
  have hp := expected_score_base_pos ra rb
  exact div_pos one_pos (by linarith)

theorem expected_score_lt_one (ra rb : ℝ) : calculate_expected_score ra rb < 1 := by
  unfold calculate_expected_score
  have hp := expected_score_base_pos ra rb
  rw [div_lt_one (by linarith)]
  linarith

theorem expected_score_add (ra rb : ℝ) :
    calculate_expected_score ra rb + calculate_expected_score rb ra = 1 := by
  unfold calculate_expected_score
  have hneg : (ra - rb) / 400 = -((rb - ra) / 400) := by ring
  rw [hneg, Real.rpow_neg (by norm_num : (0 : ℝ) ≤ 10)]
  have hp := expected_score_base_pos ra rb
  have h1 : (1 : ℝ) + (10 : ℝ) ^ ((rb - ra) / 400) ≠ 0 := by positivity
  have h2 : (1 : ℝ) + ((10 : ℝ) ^ ((rb - ra) / 400))⁻¹ ≠ 0 := by positivity
  field_simp
  ring

theorem expected_score_self (r : ℝ) : calculate_expected_score r r = 1 / 2 := by
  unfold calculate_expected_score
  rw [sub_self, zero_div, Real.rpow_zero]
  norm_num

theorem update_ratings_history (sys : EloRatingSystem) (a b : String) (r : ℝ) :
    (update_ratings sys a b r).history = sys.history ++ [updateRecord sys a b r] := by
  unfold update_ratings updateRecord
  simp [GetRatingLemmas.get_rating_history]

theorem update_lookup_snd (sys : EloRatingSystem) (a b : String) (r : ℝ) :
    List.lookup b (update_ratings sys a b r).ratings
      = some ((get_rating (get_rating sys a).2 b).1
          + sys.k_factor * ((1 - r)
              - calculate_expected_score (get_rating (get_rating sys a).2 b).1
                  (get_rating sys a).1)) := by
  unfold update_ratings
  simp [DictLemmas.lookup_dictSet_self]

theorem update_lookup_fst (sys : EloRatingSystem) {a b : String} (r : ℝ) (h : a ≠ b) :
    List.lookup a (update_ratings sys a b r).ratings
      = some ((get_rating sys a).1
          + sys.k_factor * (r
              - calculate_expected_score (get_rating sys a).1
                  (get_rating (get_rating sys a).2 b).1)) := by
  unfold update_ratings
  rw [DictLemmas.lookup_dictSet_ne _ _ h, DictLemmas.lookup_dictSet_self]

theorem get_rating_snd_of_mem (sys : EloRatingSystem) (n : String) (v : ℝ)
    (h : List.lookup n sys.ratings = some v) : (get_rating sys n).2 = sys := by
  unfold get_rating
  rw [h]

theorem get_rating_fst_idem (sys : EloRatingSystem) (n : String) :
    (get_rating (get_rating sys n).2 n).1 = (get_rating sys n).1 := by
  rw [GetRatingLemmas.get_rating_fst, GetRatingLemmas.lookup_get_rating_self]
  rfl

theorem applyUpdates_length (calls : List (String × String × ℝ)) :
    ∀ sys : EloRatingSystem,
      (applyUpdates sys calls).history.length = sys.history.length + calls.length := by
  induction calls with
  | nil => intro sys; simp [applyUpdates]
  | cons c rest ih =>
    intro sys
    obtain ⟨a, b, r⟩ := c
    rw [applyUpdates, ih, update_ratings_history]
    simp only [List.length_append, List.length_cons, List.length_nil]
    omega

/-- In exact real arithmetic the two deltas applied by `update_ratings` sum
to zero: the expected scores of the two sides sum to exactly 1, so the
update is exactly conservative. (The non-conservation the spec speaks of is
a floating-point rounding artifact.) -/
theorem update_deltas_conserve (sys : EloRatingSystem) {a b : String} (r : ℝ)
    (h : a ≠ b) :
    ((List.lookup a (update_ratings sys a b r).ratings).getD 0 - (get_rating sys a).1)
      + ((List.lookup b (update_ratings sys a b r).ratings).getD 0 - (get_rating sys b).1)
      = 0 := by
  rw [update_lookup_fst sys r h, update_lookup_snd sys a b r,
    GetRatingLemmas.get_rating_fst_after_other sys (Ne.symm h)]
  simp only [Option.getD_some]
  have hsum := expected_score_add (get_rating sys a).1 (get_rating sys b).1
  linear_combination (-sys.k_factor) * hsum

end EloLemmas

/-- Claim C4: `calculate_expected_score rating_x rating_y` equals
`1 / (1 + 10 ^ ((rating_y - rating_x) / 400))`, is defined on all real
ratings, and always lies strictly between 0 and 1. -/
theorem elo_expected_score_formula_range (rating_x rating_y : ℝ) :
    calculate_expected_score rating_x rating_y
      = 1 / (1 + (10 : ℝ) ^ ((rating_y - rating_x) / 400))
    ∧ 0 < calculate_expected_score rating_x rating_y
    ∧ calculate_expected_score rating_x rating_y < 1 :=
  ⟨rfl, EloLemmas.expected_score_pos rating_x rating_y,
    EloLemmas.expected_score_lt_one rating_x rating_y⟩

/-- Claim C5: for all ratings `ra, rb`,
`calculate_expected_score ra rb + calculate_expected_score rb ra = 1`, and
`calculate_expected_score r r = 0.5` for every rating `r`. -/
theorem elo_expected_score_complement (ra rb r : ℝ) :
    calculate_expected_score ra rb + calculate_expected_score rb ra = 1
    ∧ calculate_expected_score r r = 1 / 2 :=
  ⟨EloLemmas.expected_score_add ra rb, EloLemmas.expected_score_self r⟩

theorem updateRecord_rating_a_after (sys : EloRatingSystem) (a b : String) (r : ℝ) :
    (updateRecord sys a b r).rating_a_after
      = (get_rating sys a).1
        + sys.k_factor * (r
            - calculate_expected_score (get_rating sys a).1
                (get_rating (get_rating sys a).2 b).1) := rfl

/-- Claim C1: for distinct entrants `a ≠ b`, `update_ratings sys a b r`
stores `old_a + k_factor * (r - expected_a)` for `a` and
`old_b + k_factor * ((1 - r) - expected_b)` for `b`, where
`expected_a = calculate_expected_score old_a old_b` and
`expected_b = calculate_expected_score old_b old_a` are computed from the
ratings current at call entry, and appends exactly one history record
capturing both names, both pre-update ratings, both post-update ratings,
the outcome for `a` and `expected_a`. Being a total function, the
operation never fails. -/
theorem elo_update_ratings_correct (sys : EloRatingSystem) (a b : String) (r : ℝ)
    (h : a ≠ b) :
    List.lookup a (update_ratings sys a b r).ratings
      = some ((get_rating sys a).1
          + sys.k_factor * (r
              - calculate_expected_score (get_rating sys a).1 (get_rating sys b).1))
    ∧ List.lookup b (update_ratings sys a b r).ratings
      = some ((get_rating sys b).1
          + sys.k_factor * ((1 - r)
              - calculate_expected_score (get_rating sys b).1 (get_rating sys a).1))
    ∧ (update_ratings sys a b r).history
      = sys.history ++
          [{ model_a := a
             model_b := b
             rating_a_before := (get_rating sys a).1
             rating_b_before := (get_rating sys b).1
             rating_a_after := (get_rating sys a).1
               + sys.k_factor * (r
                   - calculate_expected_score (get_rating sys a).1 (get_rating sys b).1)
             rating_b_after := (get_rating sys b).1
               + sys.k_factor * ((1 - r)
                   - calculate_expected_score (get_rating sys b).1 (get_rating sys a).1)
             score_a := r
             expected_a :=
               calculate_expected_score (get_rating sys a).1 (get_rating sys b).1 }] := by
  have hba : b ≠ a := Ne.symm h
  have hfst := EloLemmas.update_lookup_fst sys r h
  have hsnd := EloLemmas.update_lookup_snd sys a b r
  rw [GetRatingLemmas.get_rating_fst_after_other sys hba] at hfst hsnd
  refine ⟨hfst, hsnd, ?_⟩
  rw [EloLemmas.update_ratings_history]
  simp only [updateRecord]
  rw [GetRatingLemmas.get_rating_fst_after_other sys hba]

/-- Witness for claim C1: the default system, entrants `"A"` and `"B"`,
outcome 1. -/
theorem elo_update_ratings_correct_witness :
    ("A" : String) ≠ "B"
    ∧ (List.lookup "A" (update_ratings {} "A" "B" 1).ratings
        = some ((get_rating {} "A").1
            + ({} : EloRatingSystem).k_factor * (1
                - calculate_expected_score (get_rating {} "A").1 (get_rating {} "B").1))
      ∧ List.lookup "B" (update_ratings {} "A" "B" 1).ratings
        = some ((get_rating {} "B").1
            + ({} : EloRatingSystem).k_factor * ((1 - 1)
                - calculate_expected_score (get_rating {} "B").1 (get_rating {} "A").1))
      ∧ (update_ratings {} "A" "B" 1).history
        = ({} : EloRatingSystem).history ++
            [{ model_a := "A"
               model_b := "B"
               rating_a_before := (get_rating {} "A").1
               rating_b_before := (get_rating {} "B").1
               rating_a_after := (get_rating {} "A").1
                 + ({} : EloRatingSystem).k_factor * (1
                     - calculate_expected_score (get_rating {} "A").1 (get_rating {} "B").1)
               rating_b_after := (get_rating {} "B").1
                 + ({} : EloRatingSystem).k_factor * ((1 - 1)
                     - calculate_expected_score (get_rating {} "B").1 (get_rating {} "A").1)
               score_a := 1
               expected_a :=
                 calculate_expected_score (get_rating {} "A").1 (get_rating {} "B").1 }]) :=
  ⟨by decide, elo_update_ratings_correct {} "A" "B" 1 (by decide)⟩

/-- Claim C6: every `update_ratings` call appends exactly one record at the
end of the history (so after N calls from an empty history the length is
exactly N, with records in call order), and `get_rating`, the only other
state-touching operation, never changes the history. -/
theorem elo_history_append_only (sys : EloRatingSystem) (a b n : String) (r : ℝ)
    (calls : List (String × String × ℝ)) :
    (update_ratings sys a b r).history = sys.history ++ [updateRecord sys a b r]
    ∧ (update_ratings sys a b r).history.length = sys.history.length + 1
    ∧ (get_rating sys n).2.history = sys.history
    ∧ (applyUpdates sys calls).history.length = sys.history.length + calls.length
    ∧ (applyUpdates {} calls).history.length = calls.length := by
  refine ⟨EloLemmas.update_ratings_history sys a b r, ?_,
    GetRatingLemmas.get_rating_history sys n,
    EloLemmas.applyUpdates_length calls sys, ?_⟩
  · rw [EloLemmas.update_ratings_history]
    simp
  · rw [EloLemmas.applyUpdates_length calls {}]
    simp [EloRatingSystem.history]

/-- Claim C7: `get_rating` on a never-seen name returns exactly
`base_rating` and inserts that value into the rating mapping; a repeated
call returns the same base value and leaves the whole system unchanged. -/
theorem elo_get_rating_lazy_init (sys : EloRatingSystem) (name : String)
    (h : List.lookup name sys.ratings = none) :
    (get_rating sys name).1 = sys.base_rating
    ∧ (get_rating sys name).2.ratings = dictSet sys.ratings name sys.base_rating
    ∧ (get_rating (get_rating sys name).2 name).1 = sys.base_rating
    ∧ (get_rating (get_rating sys name).2 name).2 = (get_rating sys name).2 := by
  have h1 : (get_rating sys name).1 = sys.base_rating := by
    rw [GetRatingLemmas.get_rating_fst, h]
    rfl
  have h2 : (get_rating sys name).2.ratings = dictSet sys.ratings name sys.base_rating := by
    unfold get_rating
    rw [h]
  refine ⟨h1, h2, ?_, ?_⟩
  · rw [EloLemmas.get_rating_fst_idem, h1]
  · exact EloLemmas.get_rating_snd_of_mem _ _ _
      (GetRatingLemmas.lookup_get_rating_self sys name)

/-- Witness for claim C7: the default (empty) system and the unseen name
`"m"`. -/
theorem elo_get_rating_lazy_init_witness :
    List.lookup "m" ({} : EloRatingSystem).ratings = none
    ∧ ((get_rating {} "m").1 = ({} : EloRatingSystem).base_rating
      ∧ (get_rating {} "m").2.ratings
        = dictSet ({} : EloRatingSystem).ratings "m" ({} : EloRatingSystem).base_rating
      ∧ (get_rating (get_rating {} "m").2 "m").1 = ({} : EloRatingSystem).base_rating
      ∧ (get_rating (get_rating {} "m").2 "m").2 = (get_rating {} "m").2) :=
  ⟨rfl, elo_get_rating_lazy_init {} "m" rfl⟩

/-- Claim C10: a self-match `update_ratings sys n n r` has both expected
scores equal to 0.5, the second write overwrites the first so the stored
rating becomes `old + k_factor * ((1 - r) - 0.5)` (strictly decreasing for
`r = 1` since `k_factor > 0`), and the appended record's `rating_a_after`
differs from the rating actually stored whenever `r ≠ 0.5`. -/
theorem elo_self_match_anomaly (sys : EloRatingSystem) (n : String) (r : ℝ)
    (hk : 0 < sys.k_factor) :
    calculate_expected_score (get_rating sys n).1 (get_rating sys n).1 = 1 / 2
    ∧ List.lookup n (update_ratings sys n n r).ratings
        = some ((get_rating sys n).1 + sys.k_factor * ((1 - r) - 1 / 2))
    ∧ (r = 1 →
        (get_rating sys n).1 + sys.k_factor * ((1 - r) - 1 / 2) < (get_rating sys n).1)
    ∧ (r ≠ 1 / 2 →
        (updateRecord sys n n r).rating_a_after
          ≠ (get_rating sys n).1 + sys.k_factor * ((1 - r) - 1 / 2))
    ∧ (update_ratings sys n n r).history = sys.history ++ [updateRecord sys n n r] := by
  have hes := EloLemmas.expected_score_self (get_rating sys n).1
  have hlook := EloLemmas.update_lookup_snd sys n n r
  rw [EloLemmas.get_rating_fst_idem, hes] at hlook
  have hrec : (updateRecord sys n n r).rating_a_after
      = (get_rating sys n).1 + sys.k_factor * (r - 1 / 2) := by
    rw [updateRecord_rating_a_after, EloLemmas.get_rating_fst_idem, hes]
  refine ⟨hes, hlook, ?_, ?_, EloLemmas.update_ratings_history sys n n r⟩
  · intro hr
    subst hr
    have hval : sys.k_factor * ((1 - 1 : ℝ) - 1 / 2) = -(sys.k_factor / 2) := by ring
    rw [hval]
    linarith
  · intro hr heq
    rw [hrec] at heq
    have heq' : sys.k_factor * (r - 1 / 2) = sys.k_factor * ((1 - r) - 1 / 2) := by
      linarith
    have h0 : sys.k_factor * (2 * r - 1) = 0 := by linear_combination heq'
    rcases mul_eq_zero.mp h0 with hk0 | hr0
    · exact absurd hk0 hk.ne'
    · exact hr (by linarith)

/-- Witness for claim C10: the default system (`k_factor = 32`), name
`"m"`, outcome 1. -/
theorem elo_self_match_anomaly_witness :
    0 < ({} : EloRatingSystem).k_factor
    ∧ (calculate_expected_score (get_rating {} "m").1 (get_rating {} "m").1 = 1 / 2
      ∧ List.lookup "m" (update_ratings {} "m" "m" 1).ratings
          = some ((get_rating {} "m").1
              + ({} : EloRatingSystem).k_factor * ((1 - 1) - 1 / 2))
      ∧ ((1 : ℝ) = 1 →
          (get_rating {} "m").1 + ({} : EloRatingSystem).k_factor * ((1 - 1) - 1 / 2)
            < (get_rating {} "m").1)
      ∧ ((1 : ℝ) ≠ 1 / 2 →
          (updateRecord {} "m" "m" 1).rating_a_after
            ≠ (get_rating {} "m").1
              + ({} : EloRatingSystem).k_factor * ((1 - 1) - 1 / 2))
      ∧ (update_ratings {} "m" "m" 1).history
          = ({} : EloRatingSystem).history ++ [updateRecord {} "m" "m" 1]) :=
  ⟨by norm_num [EloRatingSystem.k_factor], elo_self_match_anomaly {} "m" 1
    (by norm_num [EloRatingSystem.k_factor])⟩

namespace OrchestratorLemmas

theorem processItem_both (judge : Judge) (a b ra rb ref pid : String)
    (st : EloRatingSystem × List ComparisonResult) (d1 d2 : JudgeDecision)
    (h1 : judge pid ra rb ref = some d1) (h2 : judge pid rb ra ref = some d2) :
    processItem judge a b ra rb ref pid st
      = (update_ratings (update_ratings st.1 a b (round1Score d1.winner)) a b
          (round2Score d2.winner),
         st.2 ++
           [{ input := pid
              model_a := a
              model_b := b
              response_a := ra
              response_b := rb
              judge_decision := d1.winner
              judge_explanation := d1.explanation
              swapped := false
              real_winner := none },
            { input := pid
              model_a := b
              model_b := a
              response_a := rb
              response_b := ra
              judge_decision := d2.winner
              judge_explanation := d2.explanation
              swapped := true
              real_winner := some (round2RealWinner d2.winner) }]) := by
  simp only [processItem, h1, h2]
  simp

theorem processItem_none_none (judge : Judge) (a b ra rb ref pid : String)
    (st : EloRatingSystem × List ComparisonResult)
    (h1 : judge pid ra rb ref = none) (h2 : judge pid rb ra ref = none) :
    processItem judge a b ra rb ref pid st = st := by
  simp only [processItem, h1, h2]

theorem processItem_fail_fst (judge : Judge) (a b ra rb ref pid : String)
    (st : EloRatingSystem × List ComparisonResult) (d2 : JudgeDecision)
    (h1 : judge pid ra rb ref = none) (h2 : judge pid rb ra ref = some d2) :
    processItem judge a b ra rb ref pid st
      = (update_ratings st.1 a b (round2Score d2.winner),
         st.2 ++
           [{ input := pid
              model_a := b
              model_b := a
              response_a := rb
              response_b := ra
              judge_decision := d2.winner
              judge_explanation := d2.explanation
              swapped := true
              real_winner := some (round2RealWinner d2.winner) }]) := by
  simp only [processItem, h1, h2]

theorem foldl_processItem_none (model_a_name model_b_name : String)
    (outputs_a outputs_b reference_answers : List (String × String)) :
    ∀ (l : List String) (st : EloRatingSystem × List ComparisonResult),
      List.foldl
        (fun st prompt_id =>
          processItem (fun _ _ _ _ => none) model_a_name model_b_name
            ((List.lookup prompt_id outputs_a).getD "")
            ((List.lookup prompt_id outputs_b).getD "")
            ((List.lookup prompt_id reference_answers).getD "N/A")
            prompt_id st)
        st l = st := by
  intro l
  induction l with
  | nil => intro st; rfl
  | cons p rest ih =>
    intro st
    rw [List.foldl_cons,
      processItem_none_none (fun _ _ _ _ => none) model_a_name model_b_name _ _ _ p st rfl rfl]
    exact ih st

theorem run_pairwise_comparison_empty (model_a_name model_b_name : String)
    (outputs_a outputs_b reference_answers : List (String × String))
    (elo_system : EloRatingSystem) (judge : Judge)
    (hempty : commonInputs outputs_a outputs_b = []) :
    run_pairwise_comparison model_a_name outputs_a model_b_name outputs_b
      elo_system judge reference_answers = (elo_system, []) := by
  simp [run_pairwise_comparison, hempty]

theorem run_pairwise_comparison_judge_none (model_a_name model_b_name : String)
    (outputs_a outputs_b reference_answers : List (String × String))
    (elo_system : EloRatingSystem) :
    run_pairwise_comparison model_a_name outputs_a model_b_name outputs_b
      elo_system (fun _ _ _ _ => none) reference_answers = (elo_system, []) := by
  by_cases hc : commonInputs outputs_a outputs_b = []
  · exact run_pairwise_comparison_empty _ _ _ _ _ _ _ hc
  · simp only [run_pairwise_comparison, if_neg hc]
    exact foldl_processItem_none model_a_name model_b_name outputs_a outputs_b
      reference_answers _ _

theorem runAllPairs_skip_empty (judge : Judge)
    (reference_answers : List (String × String))
    (model_a_name model_b_name : String)
    (outputs_a outputs_b : List (String × String))
    (rest : List ((String × List (String × String)) × (String × List (String × String))))
    (elo_system : EloRatingSystem) (acc : List ComparisonResult)
    (hempty : commonInputs outputs_a outputs_b = []) :
    runAllPairs judge reference_answers
        (((model_a_name, outputs_a), (model_b_name, outputs_b)) :: rest) elo_system acc
      = runAllPairs judge reference_answers rest elo_system acc := by
  simp only [runAllPairs]
  rw [run_pairwise_comparison_empty model_a_name model_b_name outputs_a outputs_b
    reference_answers elo_system judge hempty]
  simp

end OrchestratorLemmas

/-- Claim C2: in the swapped second round the verdict is mapped by inverting
the forward mapping (`"A"` → outcome 0.0 for entrant a, real winner `"B"`;
`"B"` → 1.0, real winner `"A"`; tie → 0.5, `"Tie"`), and when neither judge
invocation fails `update_ratings` is invoked exactly twice per shared item,
both times in the canonical `(entrant_a, entrant_b)` argument order. -/
theorem orchestrator_swapped_round (judge : Judge)
    (model_a_name model_b_name response_a response_b ref_answer prompt_id : String)
    (st : EloRatingSystem × List ComparisonResult) (d1 d2 : JudgeDecision)
    (h1 : judge prompt_id response_a response_b ref_answer = some d1)
    (h2 : judge prompt_id response_b response_a ref_answer = some d2) :
    round2Score Winner.A = 0 ∧ round2RealWinner Winner.A = "B"
    ∧ round2Score Winner.B = 1 ∧ round2RealWinner Winner.B = "A"
    ∧ round2Score Winner.Tie = 1 / 2 ∧ round2RealWinner Winner.Tie = "Tie"
    ∧ processItem judge model_a_name model_b_name response_a response_b ref_answer
        prompt_id st
      = (update_ratings
            (update_ratings st.1 model_a_name model_b_name (round1Score d1.winner))
            model_a_name model_b_name (round2Score d2.winner),
         st.2 ++
           [{ input := prompt_id
              model_a := model_a_name
              model_b := model_b_name
              response_a := response_a
              response_b := response_b
              judge_decision := d1.winner
              judge_explanation := d1.explanation
              swapped := false
              real_winner := none },
            { input := prompt_id
              model_a := model_b_name
              model_b := model_a_name
              response_a := response_b
              response_b := response_a
              judge_decision := d2.winner
              judge_explanation := d2.explanation
              swapped := true
              real_winner := some (round2RealWinner d2.winner) }]) :=
  ⟨rfl, rfl, rfl, rfl, rfl, rfl,
    OrchestratorLemmas.processItem_both judge model_a_name model_b_name response_a
      response_b ref_answer prompt_id st d1 d2 h1 h2⟩

/-- Witness for claim C2: a judge that always answers `"A"`, entrants `"A"`
and `"B"`, one item `"1"`. -/
theorem orchestrator_swapped_round_witness :
    (fun _ _ _ _ => some ⟨Winner.A, "x"⟩ : Judge) "1" "ra" "rb" "N/A"
        = some (⟨Winner.A, "x"⟩ : JudgeDecision)
    ∧ (fun _ _ _ _ => some ⟨Winner.A, "x"⟩ : Judge) "1" "rb" "ra" "N/A"
        = some (⟨Winner.A, "x"⟩ : JudgeDecision)
    ∧ (round2Score Winner.A = 0 ∧ round2RealWinner Winner.A = "B"
      ∧ round2Score Winner.B = 1 ∧ round2RealWinner Winner.B = "A"
      ∧ round2Score Winner.Tie = 1 / 2 ∧ round2RealWinner Winner.Tie = "Tie"
      ∧ processItem (fun _ _ _ _ => some ⟨Winner.A, "x"⟩) "A" "B" "ra" "rb" "N/A" "1"
          ({}, [])
        = (update_ratings (update_ratings {} "A" "B" (round1Score Winner.A)) "A" "B"
            (round2Score Winner.A),
           [{ input := "1"
              model_a := "A"
              model_b := "B"
              response_a := "ra"
              response_b := "rb"
              judge_decision := Winner.A
              judge_explanation := "x"
              swapped := false
              real_winner := none },
            { input := "1"
              model_a := "B"
              model_b := "A"
              response_a := "rb"
              response_b := "ra"
              judge_decision := Winner.A
              judge_explanation := "x"
              swapped := true
              real_winner := some (round2RealWinner Winner.A) }])) :=
  ⟨rfl, rfl,
    orchestrator_swapped_round (fun _ _ _ _ => some ⟨Winner.A, "x"⟩) "A" "B" "ra" "rb"
      "N/A" "1" ({}, []) ⟨Winner.A, "x"⟩ ⟨Winner.A, "x"⟩ rfl rfl⟩

/-- Claim C8: the shared item keys are processed in numeric order (sorted by
integer value) when every key parses as an integer, and in lexicographic
order otherwise; in particular the keys `"1"`, `"2"`, `"10"` are processed
as 1, 2, 10, not lexicographically as 1, 10, 2. -/
theorem orchestrator_item_order (keys : List String) :
    ((∀ k ∈ keys, (pyInt k).isSome = true) →
      List.Sorted intKeyLe (sortInputs keys) ∧ List.Perm (sortInputs keys) keys)
    ∧ (¬ (∀ k ∈ keys, (pyInt k).isSome = true) →
      List.Sorted (fun x y : String => x ≤ y) (sortInputs keys)
        ∧ List.Perm (sortInputs keys) keys)
    ∧ sortInputs ["1", "10", "2"] = ["1", "2", "10"]
    ∧ sortInputs ["2", "1", "10"] = ["1", "2", "10"] := by
  refine ⟨?_, ?_, by decide, by decide⟩
  · intro h
    have hall : (keys.all fun k => (pyInt k).isSome) = true :=
      List.all_eq_true.mpr h
    rw [sortInputs, if_pos hall]
    exact ⟨List.sorted_insertionSort intKeyLe keys,
      List.perm_insertionSort intKeyLe keys⟩
  · intro h
    have hall : (keys.all fun k => (pyInt k).isSome) = false :=
      Bool.eq_false_iff.mpr fun hc => h (List.all_eq_true.mp hc)
    rw [sortInputs, if_neg (by simp [hall])]
    exact ⟨List.sorted_insertionSort (fun x y : String => x ≤ y) keys,
      List.perm_insertionSort (fun x y : String => x ≤ y) keys⟩

/-- Witness for claim C8: the all-numeric key set `"1"`, `"10"`, `"2"`. -/
theorem orchestrator_item_order_witness :
    (∀ k ∈ ["1", "10", "2"], (pyInt k).isSome = true)
    ∧ (List.Sorted intKeyLe (sortInputs ["1", "10", "2"])
      ∧ List.Perm (sortInputs ["1", "10", "2"]) ["1", "10", "2"]) :=
  ⟨by decide, (orchestrator_item_order ["1", "10", "2"]).1 (by decide)⟩

/-- Claim C9: skipped work leaves the rating system untouched and does not
halt the run. A pair with an empty item-key intersection produces zero
results and zero rating or history mutations; a round whose judge
invocation fails produces no result record and no mutation for that round
while the other round of the item still takes effect; an item whose two
rounds both fail leaves the state unchanged; and a skipped pair does not
stop the processing of the remaining pairs. -/
theorem orchestrator_skip_semantics (jb jc judge : Judge)
    (model_a_name model_b_name response_a response_b ref_answer prompt_id : String)
    (outputs_a outputs_b reference_answers : List (String × String))
    (st : EloRatingSystem × List ComparisonResult) (d2 : JudgeDecision)
    (elo_system : EloRatingSystem) (acc : List ComparisonResult)
    (rest : List ((String × List (String × String)) × (String × List (String × String)))) :
    (commonInputs outputs_a outputs_b = [] →
      run_pairwise_comparison model_a_name outputs_a model_b_name outputs_b
        elo_system judge reference_answers = (elo_system, []))
    ∧ (jb prompt_id response_a response_b ref_answer = none →
       jb prompt_id response_b response_a ref_answer = none →
      processItem jb model_a_name model_b_name response_a response_b ref_answer
        prompt_id st = st)
    ∧ (jc prompt_id response_a response_b ref_answer = none →
       jc prompt_id response_b response_a ref_answer = some d2 →
      processItem jc model_a_name model_b_name response_a response_b ref_answer
        prompt_id st
      = (update_ratings st.1 model_a_name model_b_name (round2Score d2.winner),
         st.2 ++
           [{ input := prompt_id
              model_a := model_b_name
              model_b := model_a_name
              response_a := response_b
              response_b := response_a
              judge_decision := d2.winner
              judge_explanation := d2.explanation
              swapped := true
              real_winner := some (round2RealWinner d2.winner) }]))
    ∧ run_pairwise_comparison model_a_name outputs_a model_b_name outputs_b
        elo_system (fun _ _ _ _ => none) reference_answers = (elo_system, [])
    ∧ (commonInputs outputs_a outputs_b = [] →
      runAllPairs judge reference_answers
          (((model_a_name, outputs_a), (model_b_name, outputs_b)) :: rest)
          elo_system acc
        = runAllPairs judge reference_answers rest elo_system acc) := by
  refine ⟨?_, ?_, ?_, ?_, ?_⟩
  · intro hempty
    exact OrchestratorLemmas.run_pairwise_comparison_empty _ _ _ _ _ _ _ hempty
  · intro h1 h2
    exact OrchestratorLemmas.processItem_none_none jb _ _ _ _ _ _ st h1 h2
  · intro h1 h2
    exact OrchestratorLemmas.processItem_fail_fst jc _ _ _ _ _ _ st d2 h1 h2
  · exact OrchestratorLemmas.run_pairwise_comparison_judge_none _ _ _ _ _ _
  · intro hempty
    exact OrchestratorLemmas.runAllPairs_skip_empty judge reference_answers _ _ _ _
      rest elo_system acc hempty

/-- Witness for claim C9: entrants `"A"` (item `"1"`) and `"B"` (item
`"2"`, so the intersection is empty), an always-failing judge for the
both-rounds-fail conjunct, and a judge that succeeds only when `"rb"` is in
the first slot for the failed-first-round conjunct. -/
theorem orchestrator_skip_semantics_witness :
    ((fun _ _ _ _ => none : Judge) "1" "ra" "rb" "N/A" = none
      ∧ (fun _ _ _ _ => none : Judge) "1" "rb" "ra" "N/A" = none)
    ∧ ((fun _ r1 _ _ => if r1 = "rb" then some ⟨Winner.B, "e"⟩ else none : Judge)
          "1" "ra" "rb" "N/A" = none
      ∧ (fun _ r1 _ _ => if r1 = "rb" then some ⟨Winner.B, "e"⟩ else none : Judge)
          "1" "rb" "ra" "N/A" = some ⟨Winner.B, "e"⟩)
    ∧ commonInputs [("1", "ra")] [("2", "rb")] = []
    ∧ (run_pairwise_comparison "A" [("1", "ra")] "B" [("2", "rb")] {}
          (fun _ _ _ _ => none) [] = ({}, []))
    ∧ (processItem (fun _ _ _ _ => none) "A" "B" "ra" "rb" "N/A" "1" ({}, [])
        = ({}, []))
    ∧ (processItem (fun _ r1 _ _ => if r1 = "rb" then some ⟨Winner.B, "e"⟩ else none)
          "A" "B" "ra" "rb" "N/A" "1" ({}, [])
        = (update_ratings {} "A" "B" (round2Score Winner.B),
           [{ input := "1"
              model_a := "B"
              model_b := "A"
              response_a := "rb"
              response_b := "ra"
              judge_decision := Winner.B
              judge_explanation := "e"
              swapped := true
              real_winner := some (round2RealWinner Winner.B) }]))
    ∧ (runAllPairs (fun _ _ _ _ => none) []
          [(("A", [("1", "ra")]), ("B", [("2", "rb")]))] {} []
        = runAllPairs (fun _ _ _ _ => none) [] [] {} []) := by
  have h := orchestrator_skip_semantics
    (fun _ _ _ _ => none)
    (fun _ r1 _ _ => if r1 = "rb" then some ⟨Winner.B, "e"⟩ else none)
    (fun _ _ _ _ => none)
    "A" "B" "ra" "rb" "N/A" "1"
    [("1", "ra")] [("2", "rb")] []
    ({}, []) ⟨Winner.B, "e"⟩ {} [] []
  exact ⟨⟨rfl, rfl⟩, ⟨rfl, rfl⟩, rfl,
    h.1 rfl, h.2.1 rfl rfl, h.2.2.1 rfl rfl, h.2.2.2.2 rfl⟩
